import Mathlib

/-!
Verification development for the X-Booking repository: a shallow embedding of
the booking orchestration engine (state store, slot-availability cache,
account pool manager, snipe-job scheduler, booking-execution coordinator) and
of the Next.js API route handlers, together with theorems settling the
frozen specification claims.

The TypeScript route handlers under `src/app/api` are embedded directly from
the source.  The Python backend services (`DatabaseService`,
`SchedulerService`, `AccountManager`, `BookingService`) are declared in the
repository's planning documents and SQL schema but their code is not part of
the repository snapshot; those parts are modelled from the specification and
the in-repo declarations, as marked in the individual doc comments.
-/

namespace XBooking

/-! ## JavaScript value semantics

The route handlers destructure JSON request bodies into JavaScript values;
a missing field destructures to `undefined`.  `JVal` models the JavaScript
values that can occur there, `truthy` models JavaScript boolean coercion as
used in `if (!x)` checks, and `jvalToString` models `String(x)` coercion as
performed by `RegExp.test` and template literals.  Numbers are modelled as
integers (the request ids and counts in play are integral). -/

inductive JVal where
  | jundef
  | jnull
  | jbool (b : Bool)
  | jnum (n : Int)
  | jstr (s : String)
  | jarr (xs : List JVal)

/-- JavaScript truthiness of a value: `undefined`, `null`, `false`, `0` and
the empty string are falsy; every array (even `[]`) is truthy. -/
def truthy : JVal → Bool
  | .jundef => false
  | .jnull => false
  | .jbool b => b
  | .jnum n => n != 0
  | .jstr s => s != ""
  | .jarr _ => true

/-- Model of `Array.isArray`. -/
def isJsArray : JVal → Bool
  | .jarr _ => true
  | _ => false

/-- The elements of an array value (`[]` for non-arrays; in the routes this
is only reached after an `Array.isArray` guard). -/
def jsArrayElems : JVal → List JVal
  | .jarr xs => xs
  | _ => []

mutual

/-- JavaScript `String(x)` coercion for the values of `JVal`.  Arrays join
their elements with `,` per `Array.prototype.toString`. -/
def jvalToString : JVal → String
  | .jundef => "undefined"
  | .jnull => "null"
  | .jbool b => if b then "true" else "false"
  | .jnum n => toString n
  | .jstr s => s
  | .jarr xs => jlistToString xs

/-- Elementwise join of an array for `Array.prototype.toString`: `null` and
`undefined` elements become the empty string. -/
def jlistToString : List JVal → String
  | [] => ""
  | [x] => jelemToString x
  | x :: xs => jelemToString x ++ "," ++ jlistToString xs

/-- One array element rendered for `Array.prototype.join`. -/
def jelemToString : JVal → String
  | .jundef => ""
  | .jnull => ""
  | v => jvalToString v

end

/-! ## JavaScript `parseInt`

`parseInt(id)` with no radix argument: skip leading whitespace, read an
optional sign, switch to base 16 after a `0x`/`0X` marker, then consume the
longest run of digits; the result is `NaN` (here `none`) when that run is
empty. -/

/-- Whitespace characters skipped by `parseInt` (the common ASCII ones plus
no-break space; the full JavaScript set also has rarer Unicode spaces). -/
def isJsWhitespace (c : Char) : Bool :=
  c = ' ' || c = '\t' || c = '\n' || c = '\r' || c = '\x0b' || c = '\x0c' || c = ' '

/-- Value of a decimal digit, `none` for any other character. -/
def decDigit? (c : Char) : Option Nat :=
  if '0' ≤ c ∧ c ≤ '9' then some (c.toNat - '0'.toNat) else none

/-- Value of a hexadecimal digit, `none` for any other character. -/
def hexDigit? (c : Char) : Option Nat :=
  if '0' ≤ c ∧ c ≤ '9' then some (c.toNat - '0'.toNat)
  else if 'a' ≤ c ∧ c ≤ 'f' then some (c.toNat - 'a'.toNat + 10)
  else if 'A' ≤ c ∧ c ≤ 'F' then some (c.toNat - 'A'.toNat + 10)
  else none

/-- Consume the longest run of digits, accumulating a value; `acc = none`
means no digit has been read yet, in which case the result is `none`
(JavaScript `NaN`). -/
def takeDigits (radix : Nat) (digit? : Char → Option Nat) :
    List Char → Option Nat → Option Nat
  | [], acc => acc
  | c :: cs, acc =>
    match digit? c with
    | none => acc
    | some d => takeDigits radix digit? cs (some (acc.getD 0 * radix + d))

/-- Model of JavaScript `parseInt(s)` (radix argument omitted), returning
`none` for `NaN`. -/
def jsParseInt (s : String) : Option Int :=
  let cs := s.data.dropWhile isJsWhitespace
  let signAndRest : Int × List Char :=
    match cs with
    | '-' :: rest => (-1, rest)
    | '+' :: rest => (1, rest)
    | _ => (1, cs)
  let body := signAndRest.2
  let parsed : Option Nat :=
    match body with
    | '0' :: 'x' :: rest => takeDigits 16 hexDigit? rest none
    | '0' :: 'X' :: rest => takeDigits 16 hexDigit? rest none
    | _ => takeDigits 10 decDigit? body none
  parsed.map (fun n => signAndRest.1 * n)

/-! ## Route `/api/bookings/[id]` — GET, PUT, DELETE

Embedded from `src/app/api/bookings/[id]/route.ts`.  Each handler parses the
`id` path parameter with `parseInt` and answers a 400 `Invalid booking ID`
response exactly on `NaN`; otherwise it forwards the parsed id to the Python
backend bridge. -/

/-- Outcome of the id-parameter stage of `GET`/`DELETE /api/bookings/[id]`:
either the 400 `Invalid booking ID` response, or the backend call carrying
the parsed booking id. -/
inductive IdRouteOutcome where
  | invalidId
  | forward (bookingId : Int)
deriving DecidableEq, Repr

/-- GET `/api/bookings/[id]`: `parseInt` the id, 400 on `NaN`, otherwise call
the backend with action `get_booking`. -/
def getBookingRoute (id : String) : IdRouteOutcome :=
  match jsParseInt id with
  | none => .invalidId
  | some n => .forward n

/-- DELETE `/api/bookings/[id]`: `parseInt` the id, 400 on `NaN`, otherwise
call the backend with action `cancel_booking`. -/
def deleteBookingRoute (id : String) : IdRouteOutcome :=
  match jsParseInt id with
  | none => .invalidId
  | some n => .forward n

/-- Body of `PUT /api/bookings/[id]` after JSON destructuring (a missing
field is `jundef`). -/
structure PutBookingBody where
  status : JVal
  bookingReference : JVal
  errorMessage : JVal

/-- Outcome of `PUT /api/bookings/[id]`. -/
inductive PutRouteOutcome where
  | invalidId
  | noFields
  | forward (bookingId : Int) (body : PutBookingBody)

/-- PUT `/api/bookings/[id]`: `parseInt` the id, 400 on `NaN`; 400 `No fields
to update` when all of `status`, `bookingReference`, `errorMessage` are
falsy; otherwise call the backend with action `update_booking`. -/
def putBookingRoute (id : String) (body : PutBookingBody) : PutRouteOutcome :=
  match jsParseInt id with
  | none => .invalidId
  | some n =>
    if !truthy body.status && !truthy body.bookingReference && !truthy body.errorMessage then
      .noFields
    else
      .forward n body

/-! ## Route `POST /api/bookings`

Embedded from `src/app/api/bookings/route.ts`.  The handler validates the
body and only after all checks pass issues the single `fetch` to the Python
backend; every rejection is a 400 response produced before that call. -/

/-- Body of `POST /api/bookings` after JSON destructuring. -/
structure PostBookingsBody where
  accountId : JVal
  date : JVal
  timeSlots : JVal
  location : JVal
  subLocation : JVal

/-- Outcome of `POST /api/bookings`: a 400 validation response, or the
backend call (the only state-touching step of the handler). -/
inductive PostBookingsOutcome where
  | badRequest (msg : String)
  | createBooking (accountId date : JVal) (timeSlots : List JVal)
      (location : JVal) (subLocation : JVal)

/-- HTTP status of a `POST /api/bookings` outcome (400 for every validation
rejection, 201 on success). -/
def PostBookingsOutcome.statusCode : PostBookingsOutcome → Nat
  | .badRequest _ => 400
  | .createBooking _ _ _ _ _ => 201

/-- Model of `['Fitness', 'X1', 'X3'].includes(v)`: strict equality, so only
the three exact strings match. -/
def includesLocation : JVal → Bool
  | .jstr s => s == "Fitness" || s == "X1" || s == "X3"
  | _ => false

/-- Decimal-digit test, matching the regex class `\d`. -/
def isDecDigit (c : Char) : Bool :=
  '0' ≤ c && c ≤ '9'

/-- Model of `/^\d{4}-\d{2}-\d{2}$/.test s`. -/
def matchesDateRe (s : String) : Bool :=
  match s.data with
  | [a, b, c, d, '-', e, f, '-', g, h] =>
    isDecDigit a && isDecDigit b && isDecDigit c && isDecDigit d &&
      isDecDigit e && isDecDigit f && isDecDigit g && isDecDigit h
  | _ => false

/-- `POST /api/bookings` handler: the validation chain from the source,
then the backend call.  `subLocation || null` is modelled by `jsOrNull`
below via truthiness. -/
def jsOrNull (v : JVal) : JVal :=
  if truthy v then v else .jnull

/-- The `POST /api/bookings` handler body. -/
def postBookingsRoute (b : PostBookingsBody) : PostBookingsOutcome :=
  if !truthy b.accountId || !truthy b.date || !truthy b.timeSlots
      || !isJsArray b.timeSlots || (jsArrayElems b.timeSlots).length == 0 then
    .badRequest "accountId, date, and timeSlots are required"
  else if !truthy b.location || !includesLocation b.location then
    .badRequest "Invalid location. Must be Fitness, X1, or X3"
  else if !matchesDateRe (jvalToString b.date) then
    .badRequest "Invalid date format. Use YYYY-MM-DD"
  else
    .createBooking b.accountId b.date (jsArrayElems b.timeSlots) b.location (jsOrNull b.subLocation)

/-! ## Routes `GET /api/slots/monitor` and `POST /api/slots/refresh`

Embedded from `src/app/api/slots/monitor/route.ts` and
`src/app/api/slots/refresh/route.ts`. -/

/-- The recognised location names. -/
def validLocationNames : List String := ["Fitness", "X1", "X3"]

/-- Model of JavaScript `s.split(sep)` for a one-character separator, on the
character list: splitting never drops fields, so the empty string yields one
empty field. -/
def splitOnChar (sep : Char) : List Char → List (List Char)
  | [] => [[]]
  | c :: cs =>
    match splitOnChar sep cs with
    | [] => if c = sep then [[], [c]] else [[c]]
    | g :: gs => if c = sep then [] :: g :: gs else (c :: g) :: gs

/-- Model of JavaScript `s.split(',')`. -/
def jsSplitComma (s : String) : List String :=
  (splitOnChar ',' s.data).map (fun cs => String.mk cs)

/-- Model of JavaScript `s.trim()`: strip leading and trailing whitespace. -/
def jsTrim (s : String) : String :=
  String.mk (((s.data.dropWhile isJsWhitespace).reverse.dropWhile isJsWhitespace).reverse)

/-- The default `locations` parameter of the monitor route
(`searchParams.get('locations') || 'X1,X3,Fitness'`; `get` returns `null`
when absent, and an empty string is falsy, so both fall back). -/
def monitorLocationsParam (locationsParam : Option String) : String :=
  match locationsParam with
  | none => "X1,X3,Fitness"
  | some s => if s = "" then "X1,X3,Fitness" else s

/-- The monitor route's location filter: split the parameter on commas and
keep the entries whose trimmed form is a recognised location. -/
def monitorLocations (locationsParam : Option String) : List String :=
  (jsSplitComma (monitorLocationsParam locationsParam)).filter
    (fun l => validLocationNames.contains (jsTrim l))

/-- Response of `GET /api/slots/monitor`: the handler has no rejection
branch; it always opens the SSE stream whose first event carries the
filtered location list. -/
structure MonitorResponse where
  ok : Bool
  locations : List String
deriving DecidableEq, Repr

/-- `GET /api/slots/monitor` handler: always responds with the stream,
silently filtering the requested locations. -/
def monitorRoute (locationsParam : Option String) : MonitorResponse :=
  { ok := true, locations := monitorLocations locationsParam }

/-- Body of `POST /api/slots/refresh` after JSON destructuring. -/
structure RefreshBody where
  locations : JVal
  dates : JVal
  netid : JVal
  password : JVal

/-- Outcome of `POST /api/slots/refresh`: a 400 validation response or the
backend call. -/
inductive RefreshOutcome where
  | badRequest (msg : String)
  | refreshCall (locations dates : List JVal) (netid password : JVal)

/-- Whether a refresh outcome is a 400 rejection. -/
def RefreshOutcome.isBad : RefreshOutcome → Bool
  | .badRequest _ => true
  | .refreshCall _ _ _ _ => false

/-- `POST /api/slots/refresh` handler: required-field check, array check,
then rejection of any unrecognised location element. -/
def refreshRoute (b : RefreshBody) : RefreshOutcome :=
  if !truthy b.locations || !truthy b.dates || !truthy b.netid || !truthy b.password then
    .badRequest "locations, dates, netid, and password are required"
  else if !isJsArray b.locations || !isJsArray b.dates then
    .badRequest "locations and dates must be arrays"
  else
    let invalidLocations := (jsArrayElems b.locations).filter (fun l => !includesLocation l)
    if invalidLocations.length > 0 then
      .badRequest ("Invalid locations: " ++ String.intercalate ", " (invalidLocations.map jelemToString))
    else
      .refreshCall (jsArrayElems b.locations) (jsArrayElems b.dates) b.netid b.password

/-! ## State store: bookings

Modelled from the spec (section 3 and 4.1) and the SQL schema in the
repository's planning document: the `bookings` table carries
`UNIQUE(account_id, booking_date, time_slot)`, so inserting a second row for
the same (account, date, time-slot) tuple fails with a `Conflict` error,
regardless of location and status.  The backing `DatabaseService` /
`BookingService` Python code is not part of the repository snapshot. -/

/-- Booking status, one of the four states of the `status` column. -/
inductive BookingStatus where
  | pending
  | confirmed
  | failed
  | cancelled
deriving DecidableEq, Repr

/-- Whether a status counts against the one-active-booking-per-slot limit. -/
def isActiveStatus (st : BookingStatus) : Bool :=
  st == .pending || st == .confirmed

/-- One reservation-attempt outcome for one (account, date, time-slot,
location, sub-location), mirroring the columns of the `bookings` table. -/
structure Booking where
  accountId : Nat
  date : String
  timeSlot : String
  location : String
  subLocation : Option String
  status : BookingStatus
  reference : Option String
  errorMessage : Option String
deriving DecidableEq, Repr

/-- A persisted booking row: the auto-increment primary key plus the data. -/
structure BookingRow where
  id : Nat
  data : Booking
deriving DecidableEq, Repr

/-- The uniqueness key of the `bookings` table:
`(account_id, booking_date, time_slot)`. -/
def rowKey (r : BookingRow) : Nat × String × String :=
  (r.data.accountId, r.data.date, r.data.timeSlot)

/-- Executable comparison of two rows' uniqueness keys. -/
def sameRowKey (a b : BookingRow) : Bool :=
  a.data.accountId == b.data.accountId && a.data.date == b.data.date &&
    a.data.timeSlot == b.data.timeSlot

/-- The booking store: the persisted rows plus the next auto-increment id. -/
structure Store where
  rows : List BookingRow
  nextId : Nat
deriving DecidableEq, Repr

/-- Error raised by the store, distinguishing the uniqueness `Conflict`. -/
inductive StoreError where
  | conflict
deriving DecidableEq, Repr

/-- Whether some row with the given uniqueness key exists (any status). -/
def hasSlotKey (s : Store) (accountId : Nat) (date timeSlot : String) : Bool :=
  s.rows.any (fun r =>
    r.data.accountId == accountId && r.data.date == date && r.data.timeSlot == timeSlot)

/-- Modelled from the spec: `DatabaseService.create_booking` under the
schema's `UNIQUE(account_id, booking_date, time_slot)` constraint — the
atomic check-then-insert of a `pending` booking; a duplicate key fails with
`Conflict` and leaves the store unchanged. -/
def createBooking (s : Store) (accountId : Nat) (date timeSlot location : String)
    (subLocation : Option String) : Except StoreError (Store × BookingRow) :=
  if hasSlotKey s accountId date timeSlot then
    .error .conflict
  else
    let r : BookingRow :=
      { id := s.nextId,
        data := { accountId := accountId, date := date, timeSlot := timeSlot,
                  location := location, subLocation := subLocation,
                  status := .pending, reference := none, errorMessage := none } }
    .ok ({ rows := s.rows ++ [r], nextId := s.nextId + 1 }, r)

/-- Modelled from the spec: `DatabaseService.update_booking_status` /
`BookingService.update_booking` — update status, reference and error message
of the row with the given id, touching no key column. -/
def updateBooking (s : Store) (id : Nat) (st : Option BookingStatus)
    (ref err : Option String) : Store :=
  { s with rows := s.rows.map (fun r =>
      if r.id == id then
        { r with data := { r.data with
            status := st.getD r.data.status,
            reference := ref.or r.data.reference,
            errorMessage := err.or r.data.errorMessage } }
      else r) }

/-- Set only the status of the row with the given id. -/
def setBookingStatus (s : Store) (id : Nat) (st : BookingStatus) : Store :=
  { s with rows := s.rows.map (fun r =>
      if r.id == id then { r with data := { r.data with status := st } } else r) }

/-- Error raised by the cancel operation. -/
inductive CancelError where
  | notFound
  | notCancellable
deriving DecidableEq, Repr

/-- Modelled from the spec and the repository's Phase 5.5 document
(`DELETE /api/bookings/[id]`: cancels a booking, sets status to `cancelled`,
and only works for `pending` or `confirmed` bookings): the
`BookingService.cancel_booking` operation, whose Python code is not in the
snapshot.  Any other current status is rejected with an error and the store
is left unchanged. -/
def cancelBooking (s : Store) (id : Nat) : Except CancelError Store :=
  match s.rows.find? (fun r => r.id == id) with
  | none => .error .notFound
  | some r =>
    if r.data.status == .pending || r.data.status == .confirmed then
      .ok (setBookingStatus s id .cancelled)
    else
      .error .notCancellable

/-- The state-mutating store operations reachable from the API layer. -/
inductive StoreOp where
  | create (accountId : Nat) (date timeSlot location : String) (subLocation : Option String)
  | update (id : Nat) (st : Option BookingStatus) (ref err : Option String)
  | cancel (id : Nat)
deriving DecidableEq, Repr

/-- Apply one store operation; a failing operation leaves the store as is. -/
def applyOp (s : Store) : StoreOp → Store
  | .create a d t loc sl =>
    match createBooking s a d t loc sl with
    | .ok p => p.1
    | .error _ => s
  | .update id st ref err => updateBooking s id st ref err
  | .cancel id =>
    match cancelBooking s id with
    | .ok s' => s'
    | .error _ => s

/-- Apply a sequence of store operations. -/
def applyOps (s : Store) (ops : List StoreOp) : Store :=
  ops.foldl applyOp s

/-- The schema invariant: all rows have pairwise distinct
`(account_id, booking_date, time_slot)` keys. -/
def UniqueSlotKeys (s : Store) : Prop :=
  s.rows.Pairwise (fun a b => rowKey a ≠ rowKey b)

/-- The spec invariant: for every account and (date, time-slot) pair, at
most one booking with status `pending` or `confirmed` exists, regardless of
location. -/
def AtMostOneActive (s : Store) : Prop :=
  ∀ (a : Nat) (d t : String),
    (s.rows.filter (fun r =>
      r.data.accountId == a && r.data.date == d && r.data.timeSlot == t &&
        isActiveStatus r.data.status)).length ≤ 1

/-! ## Snipe-job scheduler

Modelled from the spec (section 4.4) and the planning document's
`SchedulerService` declarations (`calculate_unlock_time(target_date,
location)  # target_date - 72h/168h`); the APScheduler-based Python code is
not in the snapshot.  Job dispatch is a compare-and-swap on the status:
only a `scheduled` job can move to `running`. -/

/-- Status of a snipe job. -/
inductive JobStatus where
  | scheduled
  | running
  | completed
  | failed
deriving DecidableEq, Repr

/-- The gym locations. -/
inductive Location where
  | fitness
  | x1
  | x3
deriving DecidableEq, Repr

/-- Location-specific advance booking window in hours: 168 for Fitness, 72
for X1 and X3 (from the repository's system constraints). -/
def advanceHours : Location → Nat
  | .fitness => 168
  | .x1 => 72
  | .x3 => 72

/-- Modelled from the spec: `SchedulerService.calculate_unlock_time` — the
unlock instant of a target slot is the target instant (epoch seconds of
`targetDate@targetTime`) minus the location's advance window. -/
def calculateUnlockTime (targetInstant : Int) (loc : Location) : Int :=
  targetInstant - advanceHours loc * 3600

/-- A snipe job as planned by the scheduler (the fields the claims need). -/
structure SnipeJob where
  targetInstant : Int
  location : Location
  scheduledExecution : Int
  status : JobStatus
deriving DecidableEq, Repr

/-- Modelled from the spec: `SchedulerService.schedule_snipe_job` — a new
job is `scheduled` with its execution instant derived by
`calculate_unlock_time`. -/
def scheduleSnipeJob (targetInstant : Int) (loc : Location) : SnipeJob :=
  { targetInstant := targetInstant, location := loc,
    scheduledExecution := calculateUnlockTime targetInstant loc,
    status := .scheduled }

/-- Compare-and-swap dispatch: move the job to `running` and report success
only when its current status is `scheduled`. -/
def casFire (jobs : Nat → JobStatus) (id : Nat) : (Nat → JobStatus) × Bool :=
  if jobs id = .scheduled then (Function.update jobs id .running, true)
  else (jobs, false)

/-- Scheduler-level operations: a (possibly re-entered) dispatch attempt,
and the coordinator's terminal transitions. -/
inductive SchedOp where
  | fire (id : Nat)
  | finish (id : Nat)
  | fail (id : Nat)
deriving DecidableEq, Repr

/-- Observable dispatch events: one is emitted each time a job is actually
handed to the coordinator. -/
inductive SchedEvent where
  | dispatched (id : Nat)
deriving DecidableEq, Repr

/-- One scheduler step: `fire` is compare-and-swap guarded and emits a
dispatch event only on success; `finish`/`fail` move a `running` job to its
terminal status and emit nothing. -/
def schedStep (jobs : Nat → JobStatus) : SchedOp → (Nat → JobStatus) × List SchedEvent
  | .fire id =>
    let r := casFire jobs id
    (r.1, if r.2 then [.dispatched id] else [])
  | .finish id =>
    (if jobs id = .running then Function.update jobs id .completed else jobs, [])
  | .fail id =>
    (if jobs id = .running then Function.update jobs id .failed else jobs, [])

/-- Run a sequence of scheduler operations, accumulating the execution
history of dispatch events. -/
def schedRun (jobs : Nat → JobStatus) : List SchedOp → (Nat → JobStatus) × List SchedEvent
  | [] => (jobs, [])
  | op :: ops =>
    let r1 := schedStep jobs op
    let r2 := schedRun r1.1 ops
    (r2.1, r1.2 ++ r2.2)

/-- Number of dispatch events for a given job id in a history. -/
def countDispatched (evs : List SchedEvent) (id : Nat) : Nat :=
  (evs.filter (fun e => match e with | .dispatched j => j == id)).length

/-! ## Slot availability cache

Modelled from the spec (sections 3 and 4.2) and the `slot_availability`
schema (`UNIQUE(location, sub_location, booking_date, time_slot)`): refresh
upserts snapshots keyed by that tuple, and a read is usable only within the
TTL window against `last_checked`. -/

/-- One cached availability snapshot, mirroring the `slot_availability`
columns.  `lastChecked` is an epoch timestamp. -/
structure Snapshot where
  location : String
  subLocation : Option String
  date : String
  timeSlot : String
  isAvailable : Bool
  totalCapacity : Option Nat
  remainingCapacity : Option Nat
  lastChecked : Nat
deriving DecidableEq, Repr

/-- The uniqueness key of the `slot_availability` table. -/
def snapKey (s : Snapshot) : String × Option String × String × String :=
  (s.location, s.subLocation, s.date, s.timeSlot)

/-- Executable comparison of two snapshots' keys. -/
def sameSnapKey (a b : Snapshot) : Bool :=
  a.location == b.location && a.subLocation == b.subLocation &&
    a.date == b.date && a.timeSlot == b.timeSlot

/-- Modelled from the spec: `update_slot_availability` — upsert one
snapshot: replace the live row with the same key if one exists, insert
otherwise. -/
def upsertSlot (rows : List Snapshot) (s : Snapshot) : List Snapshot :=
  if rows.any (fun r => sameSnapKey r s) then
    rows.map (fun r => if sameSnapKey r s then s else r)
  else
    rows ++ [s]

/-- Modelled from the spec: `refresh` — upsert every snapshot returned by
the portal driver, stamping `last_checked` (already carried by the
snapshots). -/
def refreshAvailability (rows : List Snapshot) (snaps : List Snapshot) : List Snapshot :=
  snaps.foldl upsertSlot rows

/-- Whether a row carries the requested key. -/
def keyMatches (location : String) (subLocation : Option String)
    (date timeSlot : String) (r : Snapshot) : Bool :=
  r.location == location && r.subLocation == subLocation &&
    r.date == date && r.timeSlot == timeSlot

/-- Modelled from the spec: `get` — a pure read of the live row for a key,
usable only when `now - last_checked ≤ ttl`. -/
def getSlot (rows : List Snapshot) (location : String) (subLocation : Option String)
    (date timeSlot : String) (now ttl : Nat) : Option Snapshot :=
  match rows.find? (keyMatches location subLocation date timeSlot) with
  | none => none
  | some r => if now - r.lastChecked ≤ ttl then some r else none

/-- The cache invariant: at most one live row per key. -/
def UniqueSnapKeys (rows : List Snapshot) : Prop :=
  rows.Pairwise (fun a b => snapKey a ≠ snapKey b)

/-! ## Account pool manager

Modelled from the spec (section 4.3) and the planning document's
`AccountManager.get_available_accounts(date, time)` declaration: eligible
accounts are the active ones with no `pending` or `confirmed` booking for
the (date, time-slot) across any location; the candidate-location list does
not restrict the check. -/

/-- An account, as far as eligibility is concerned. -/
structure Account where
  id : Nat
  netid : String
  active : Bool
deriving DecidableEq, Repr

/-- Whether a booking blocks its account for the given (date, time-slot):
it is at that date and slot with status `pending` or `confirmed`, at any
location. -/
def blocksSlot (date timeSlot : String) (b : Booking) : Bool :=
  b.date == date && b.timeSlot == timeSlot && isActiveStatus b.status

/-- Modelled from the spec: `eligibleAccounts(date, timeSlot,
candidateLocations)` — active accounts with no blocking booking; the
candidate locations are deliberately not consulted, mirroring the
across-any-location rule. -/
def eligibleAccounts (accounts : List Account) (bookings : List Booking)
    (date timeSlot : String) (candidateLocations : List String) : List Nat :=
  (accounts.filter (fun a =>
    a.active && !(bookings.any (fun b => b.accountId == a.id && blocksSlot date timeSlot b)))).map
    Account.id

/-! ## Booking execution coordinator

Modelled from the spec (section 4.5): a priority waterfall over the job's
ordered tier list.  For each hour of the requested window that is not yet
satisfied, the tier's accounts (round-robin-assigned to its sub-locations)
are attempted in order; a successful portal attempt confirms the booking
with the returned reference and stops dispatching further accounts for that
hour; once every requested hour is satisfied the job is `completed` and no
further tiers are dispatched. -/

/-- One priority tier: a location, its sub-locations and the accounts
assigned to attempt it. -/
structure Tier where
  location : String
  subLocations : List String
  accounts : List Nat
deriving DecidableEq, Repr

/-- Round-robin assignment of accounts to sub-locations: account `i` gets
sub-location `i mod n` (none when the location has no sub-locations). -/
def roundRobin (accounts : List Nat) (subLocations : List String) :
    List (Nat × Option String) :=
  accounts.mapIdx (fun i a => (a, subLocations[i % subLocations.length]?))

/-- The portal driver capability `attemptBooking`, abstracted as a function
from (account, time-slot, location, sub-location) to the booking reference
returned on success. -/
def Portal : Type :=
  Nat → String → String → Option String → Option String

/-- The booking recorded for one attempt: `confirmed` carrying the portal's
reference on success, `failed` with an error message otherwise. -/
def attemptRecord (portal : Portal) (date location : String) (a : Nat)
    (subLoc : Option String) (h : String) : Booking :=
  match portal a h location subLoc with
  | some ref =>
    { accountId := a, date := date, timeSlot := h, location := location,
      subLocation := subLoc, status := .confirmed, reference := some ref,
      errorMessage := none }
  | none =>
    { accountId := a, date := date, timeSlot := h, location := location,
      subLocation := subLoc, status := .failed, reference := none,
      errorMessage := some "Slot no longer available" }

/-- Attempt one hour with the tier's (account, sub-location) pairs in
order, stopping as soon as an attempt confirms. -/
def tryHour (portal : Portal) (date location : String) :
    List (Nat × Option String) → String → List Booking
  | [], _ => []
  | p :: rest, h =>
    let b := attemptRecord portal date location p.1 p.2 h
    if b.status = .confirmed then [b]
    else b :: tryHour portal date location rest h

/-- Run one tier over the requested hours, skipping hours already
satisfied; returns the dispatch log and the updated satisfied set. -/
def runTier (portal : Portal) (date : String) (tier : Tier) :
    List String → List String → List Booking × List String
  | [], satisfied => ([], satisfied)
  | h :: hs, satisfied =>
    if satisfied.contains h then runTier portal date tier hs satisfied
    else
      let bs := tryHour portal date tier.location
        (roundRobin tier.accounts tier.subLocations) h
      let sat1 := if bs.any (fun b => b.status == .confirmed) then h :: satisfied
        else satisfied
      let rest := runTier portal date tier hs sat1
      (bs ++ rest.1, rest.2)

/-- Structured result of a job execution. -/
structure JobResult where
  status : JobStatus
  bookings : List Booking
  satisfiedHours : List String
deriving DecidableEq, Repr

/-- The priority waterfall: run tiers in order; after each tier, if the
whole requested window is satisfied, the job is `completed` and no further
tier is dispatched; if the tiers exhaust without satisfying the window the
job is `failed`. -/
def runJob (portal : Portal) (date : String) :
    List Tier → List String → List String → JobResult
  | [], hours, satisfied =>
    { status := if hours.all (fun h => satisfied.contains h) then .completed else .failed,
      bookings := [], satisfiedHours := satisfied }
  | t :: ts, hours, satisfied =>
    let r := runTier portal date t hours satisfied
    if hours.all (fun h => r.2.contains h) then
      { status := .completed, bookings := r.1, satisfiedHours := r.2 }
    else
      let rest := runJob portal date ts hours r.2
      { rest with bookings := r.1 ++ rest.bookings }

/-- After an attempt for an hour confirms, no later attempt in the job's
dispatch log targets that hour. -/
def NoDispatchAfterSuccess (l : List Booking) : Prop :=
  l.Pairwise (fun a b => a.status = .confirmed → b.timeSlot ≠ a.timeSlot)

/-- A booking record agrees with the portal's answer at its own
coordinates: it is `confirmed` exactly when the portal call succeeded, and
a confirmed booking carries the returned reference. -/
def BookingFromPortal (portal : Portal) (b : Booking) : Prop :=
  (b.status = .confirmed ↔
    (portal b.accountId b.timeSlot b.location b.subLocation).isSome = true) ∧
  (b.status = .confirmed →
    b.reference = portal b.accountId b.timeSlot b.location b.subLocation ∧
      b.reference.isSome = true)

/-! ## Concrete instances used by witnesses and counterexamples -/

/-- Whether a cancel call succeeds. -/
def cancelSucceeds (s : Store) (id : Nat) : Bool :=
  match cancelBooking s id with
  | .ok _ => true
  | .error _ => false

/-- A store holding one `pending` booking row with id 1. -/
def examplePendingStore : Store :=
  { rows := [{ id := 1,
               data := { accountId := 7, date := "2025-11-17", timeSlot := "13:00",
                         location := "X1", subLocation := some "X1 A",
                         status := .pending, reference := none,
                         errorMessage := none } }],
    nextId := 2 }

/-- The single row of `exampleConfirmedStore`. -/
def exampleConfirmedRow : BookingRow :=
  { id := 1,
    data := { accountId := 7, date := "2025-11-17", timeSlot := "13:00",
              location := "X1", subLocation := some "X1 A",
              status := .confirmed, reference := some "REF-1",
              errorMessage := none } }

/-- A store holding one `confirmed` booking row with id 1. -/
def exampleConfirmedStore : Store :=
  { rows := [exampleConfirmedRow], nextId := 2 }

/-- A portal on which account 1 can book 13:00 and account 2 can book 14:00. -/
def examplePortal : Portal :=
  fun a h _ _ =>
    if a == 1 && h == "13:00" then some "REF-13"
    else if a == 2 && h == "14:00" then some "REF-14"
    else none

/-- A first-priority tier with two accounts and two sub-locations. -/
def exampleTier : Tier :=
  { location := "X1", subLocations := ["X1 A", "X1 B"], accounts := [1, 2] }

/-- A second-priority tier. -/
def exampleTier2 : Tier :=
  { location := "X3", subLocations := ["X3 A", "X3 B"], accounts := [3] }

/-- The requested consecutive hours of the example job. -/
def exampleHours : List String := ["13:00", "14:00"]

/-- The booking produced by the first successful attempt of the example
job. -/
def exampleConfirmedAttempt : Booking :=
  { accountId := 1, date := "2025-11-17", timeSlot := "13:00", location := "X1",
    subLocation := some "X1 A", status := .confirmed, reference := some "REF-13",
    errorMessage := none }

/-- A snapshot used by the cache witness. -/
def exampleSnap1 : Snapshot :=
  { location := "X1", subLocation := some "X1 A", date := "2025-11-17",
    timeSlot := "13:00", isAvailable := true, totalCapacity := some 20,
    remainingCapacity := some 5, lastChecked := 1000 }

/-- A later snapshot for the same key. -/
def exampleSnap2 : Snapshot :=
  { location := "X1", subLocation := some "X1 A", date := "2025-11-17",
    timeSlot := "13:00", isAvailable := false, totalCapacity := some 20,
    remainingCapacity := some 0, lastChecked := 1040 }

/-! # Theorems

First the shared helper lemmas, then one theorem per claim (with witnesses
and counterexamples where required). -/

/-- Dispatch counts add over concatenated histories. -/
theorem countDispatched_append (a b : List SchedEvent) (id : Nat) :
    countDispatched (a ++ b) id = countDispatched a id + countDispatched b id := by
  simp [countDispatched, List.filter_append]

/-- One scheduler step: the dispatch events it emits for a job, plus the
job's remaining dispatch budget, never exceed the budget before the step
(a `scheduled` job has budget 1, any other status 0). -/
theorem schedStep_dispatch_bound (jobs : Nat → JobStatus) (op : SchedOp) (id : Nat) :
    countDispatched (schedStep jobs op).2 id
        + (if (schedStep jobs op).1 id = .scheduled then 1 else 0)
      ≤ (if jobs id = .scheduled then 1 else 0) := by
  cases op with
  | fire j =>
    by_cases hj : jobs j = .scheduled
    · by_cases hij : j = id
      · subst hij
        simp [schedStep, casFire, hj, countDispatched, Function.update_apply]
      · simp [schedStep, casFire, hj, countDispatched, Function.update_apply, hij,
          Ne.symm hij]
    · simp [schedStep, casFire, hj, countDispatched]
  | finish j =>
    by_cases hj : jobs j = .running
    · by_cases hij : j = id
      · subst hij
        simp [schedStep, hj, countDispatched, Function.update_apply]
      · simp [schedStep, hj, countDispatched, Function.update_apply, Ne.symm hij]
    · simp [schedStep, hj, countDispatched]
  | fail j =>
    by_cases hj : jobs j = .running
    · by_cases hij : j = id
      · subst hij
        simp [schedStep, hj, countDispatched, Function.update_apply]
      · simp [schedStep, hj, countDispatched, Function.update_apply, Ne.symm hij]
    · simp [schedStep, hj, countDispatched]

/-- Over any operation sequence, a job is dispatched at most once when it
starts `scheduled` and never when it starts in any other status. -/
theorem schedRun_dispatch_bound (ops : List SchedOp) (jobs : Nat → JobStatus) (id : Nat) :
    countDispatched (schedRun jobs ops).2 id
      ≤ (if jobs id = .scheduled then 1 else 0) := by
  induction ops generalizing jobs with
  | nil => simp [schedRun, countDispatched]
  | cons op ops ih =>
    have h1 := schedStep_dispatch_bound jobs op id
    have h2 := ih (schedStep jobs op).1
    simp only [schedRun, countDispatched_append]
    omega

/-- C2: for every SnipeJob, the transition `scheduled → running` occurs at
most once: over any sequence of scheduler operations — including repeated
`fire` attempts on the same job id from concurrent re-entry or a
post-restart re-scan — the execution history contains at most one dispatch
event per job, because firing is compare-and-swap guarded and no operation
ever returns a job to `scheduled`. -/
theorem snipe_job_exactly_once_dispatch (jobs : Nat → JobStatus)
    (ops : List SchedOp) (id : Nat) :
    countDispatched (schedRun jobs ops).2 id ≤ 1 := by
  have h := schedRun_dispatch_bound ops jobs id
  split at h <;> omega

/-- C5: every snipe job's `scheduled_execution` instant equals
`targetDate@targetTime` (as an epoch instant) minus the advance window of
the job's location: 168 hours for Fitness and 72 hours for X1 and X3. -/
theorem snipe_job_unlock_instant (targetInstant : Int) (loc : Location) :
    (scheduleSnipeJob targetInstant loc).scheduledExecution =
      targetInstant -
        (match loc with
          | .fitness => 168
          | .x1 => 72
          | .x3 => 72) * 3600 := by
  cases loc <;> rfl

/-- C9: for the `id` path parameter of GET, PUT and DELETE
`/api/bookings/[id]`, the 400 `Invalid booking ID` response is returned
exactly when `parseInt(id)` yields `NaN`; an id with a numeric prefix such
as `"12abc"` parses to 12 and is forwarded to the backend as booking 12. -/
theorem booking_id_param_parse :
    (∀ id : String,
      (getBookingRoute id = .invalidId ↔ jsParseInt id = none) ∧
      (deleteBookingRoute id = .invalidId ↔ jsParseInt id = none) ∧
      (∀ body : PutBookingBody,
        putBookingRoute id body = .invalidId ↔ jsParseInt id = none)) ∧
    jsParseInt "12abc" = some 12 ∧
    getBookingRoute "12abc" = .forward 12 ∧
    deleteBookingRoute "12abc" = .forward 12 ∧
    putBookingRoute "12abc"
        { status := .jstr "confirmed", bookingReference := .jundef, errorMessage := .jundef }
      = .forward 12
        { status := .jstr "confirmed", bookingReference := .jundef, errorMessage := .jundef } := by
  refine ⟨fun id => ⟨?_, ?_, fun body => ?_⟩, by decide, by decide, by decide, by rfl⟩
  · unfold getBookingRoute
    cases jsParseInt id <;> simp
  · unfold deleteBookingRoute
    cases jsParseInt id <;> simp
  · unfold putBookingRoute
    cases jsParseInt id <;> simp
    split <;> simp

/-- C4: `eligibleAccounts(date, timeSlot, candidateLocations)` returns
exactly the active accounts with no `pending` or `confirmed` booking at
that (date, timeSlot) — the condition mentions no location, so a blocking
booking at any location excludes the account, and an account whose bookings
at that slot are all `failed` or `cancelled` is included. -/
theorem eligible_accounts_characterization (accounts : List Account)
    (bookings : List Booking) (date timeSlot : String)
    (candidateLocations : List String) (aid : Nat) :
    aid ∈ eligibleAccounts accounts bookings date timeSlot candidateLocations ↔
      ∃ a ∈ accounts, a.id = aid ∧ a.active = true ∧
        ∀ b ∈ bookings, b.accountId = aid → b.date = date → b.timeSlot = timeSlot →
          b.status ≠ .pending ∧ b.status ≠ .confirmed := by
  simp only [eligibleAccounts, List.mem_map, List.mem_filter, Bool.and_eq_true,
    Bool.not_eq_true', List.any_eq_false, blocksSlot, isActiveStatus]
  constructor
  · rintro ⟨a, ⟨ha, hact, hno⟩, rfl⟩
    refine ⟨a, ha, rfl, hact, fun b hb h1 h2 h3 => ?_⟩
    have := hno b hb
    simp [h1, h2, h3] at this
    constructor <;> intro hst <;> simp [hst] at this
  · rintro ⟨a, ha, rfl, hact, hno⟩
    refine ⟨a, ⟨ha, hact, fun b hb => ?_⟩, rfl⟩
    by_cases h1 : b.accountId = a.id
    · by_cases h2 : b.date = date
      · by_cases h3 : b.timeSlot = timeSlot
        · have := hno b hb h1 h2 h3
          cases hst : b.status <;> simp_all [h1, h2, h3]
        · simp [h1, h2, h3]
      · simp [h1, h2]
    · simp [h1]

/-- C7: every malformed `POST /api/bookings` request — missing `accountId`,
`date` or `timeSlots`; `timeSlots` not a non-empty array; `location` not one
of Fitness, X1, X3; or a `date` string not matching `YYYY-MM-DD` — is
answered with a 400 validation response, and the backend call (the only
state-touching step of the handler) is never reached, so persisted state is
unchanged. -/
theorem post_bookings_rejects_malformed (b : PostBookingsBody)
    (hmal :
      b.accountId = .jundef ∨ b.date = .jundef ∨ b.timeSlots = .jundef ∨
      (¬∃ xs, b.timeSlots = .jarr xs ∧ xs ≠ []) ∨
      (¬(b.location = .jstr "Fitness" ∨ b.location = .jstr "X1" ∨ b.location = .jstr "X3")) ∨
      (∃ s, b.date = .jstr s ∧ matchesDateRe s = false)) :
    ∃ msg, postBookingsRoute b = .badRequest msg ∧
      (postBookingsRoute b).statusCode = 400 := by
  unfold postBookingsRoute
  split_ifs with h1 h2 h3
  · exact ⟨_, rfl, rfl⟩
  · exact ⟨_, rfl, rfl⟩
  · exact ⟨_, rfl, rfl⟩
  · exfalso
    simp at h1 h2 h3
    obtain ⟨⟨⟨⟨hacc, hdate⟩, hts⟩, harr⟩, hlen⟩ := h1
    obtain ⟨hltr, hlinc⟩ := h2
    rcases hmal with h | h | h | h | h | h
    · rw [h] at hacc; simp [truthy] at hacc
    · rw [h] at hdate; simp [truthy] at hdate
    · rw [h] at hts; simp [truthy] at hts
    · apply h
      cases hcase : b.timeSlots <;> rw [hcase] at harr <;> simp [isJsArray] at harr
      next xs =>
        refine ⟨xs, rfl, ?_⟩
        rw [hcase] at hlen
        simpa [jsArrayElems] using hlen
    · apply h
      cases hcase : b.location <;> rw [hcase] at hlinc <;> simp [includesLocation] at hlinc
      next s =>
        rcases hlinc with (rfl | rfl) | rfl
        · exact Or.inl rfl
        · exact Or.inr (Or.inl rfl)
        · exact Or.inr (Or.inr rfl)
    · obtain ⟨s, hds, hmre⟩ := h
      rw [hds] at h3
      simp [jvalToString] at h3
      rw [h3] at hmre
      exact Bool.noConfusion hmre

/-- Witness for C7: a request missing `accountId` is rejected with a 400
response. -/
theorem post_bookings_rejects_malformed_witness :
    ∃ msg,
      postBookingsRoute
          { accountId := .jundef, date := .jstr "2025-11-17",
            timeSlots := .jarr [.jstr "13:00"], location := .jstr "X1",
            subLocation := .jundef }
        = .badRequest msg ∧
      (postBookingsRoute
          { accountId := .jundef, date := .jstr "2025-11-17",
            timeSlots := .jarr [.jstr "13:00"], location := .jstr "X1",
            subLocation := .jundef }).statusCode = 400 :=
  post_bookings_rejects_malformed _ (Or.inl rfl)

/-- C10: `GET /api/slots/monitor` never rejects a request for unknown
locations — it always opens the stream, silently filtering the
comma-separated parameter down to the entries whose trimmed form is in
{Fitness, X1, X3} and defaulting to all three when the parameter is absent
— whereas `POST /api/slots/refresh` answers 400 whenever its `locations`
array contains an element outside that set. -/
theorem monitor_lenient_refresh_strict :
    (∀ p : Option String, (monitorRoute p).ok = true) ∧
    (∀ p : Option String, ∀ l ∈ (monitorRoute p).locations,
      validLocationNames.contains (jsTrim l) = true) ∧
    ((monitorRoute none).locations = ["X1", "X3", "Fitness"]) ∧
    (∀ s : String, (monitorRoute (some s)).locations =
      (jsSplitComma (monitorLocationsParam (some s))).filter
        (fun l => validLocationNames.contains (jsTrim l))) ∧
    (∀ (b : RefreshBody) (ls : List JVal), b.locations = .jarr ls →
      (∃ l ∈ ls, includesLocation l = false) →
      ∃ msg, refreshRoute b = .badRequest msg) := by
  refine ⟨fun p => rfl, fun p l hl => ?_, by decide, fun s => rfl, ?_⟩
  · simp only [monitorRoute, monitorLocations, List.mem_filter] at hl
    exact hl.2
  · rintro b ls hls ⟨l, hl, hlinc⟩
    have hpos : 0 < ((jsArrayElems b.locations).filter (fun v => !includesLocation v)).length := by
      rw [hls]
      simp only [jsArrayElems]
      exact List.length_pos_of_mem (List.mem_filter.mpr ⟨hl, by simp [hlinc]⟩)
    simp only [refreshRoute]
    split_ifs with hA hB
    · exact ⟨_, rfl⟩
    · exact ⟨_, rfl⟩
    · exact ⟨_, rfl⟩

/-- Witness for C10: a monitor request keeps the entry `X1`, and a refresh
body whose locations array contains the unknown location `Gym` is rejected
with a 400 response. -/
theorem monitor_lenient_refresh_strict_witness :
    validLocationNames.contains (jsTrim "X1") = true ∧
    (∃ msg, refreshRoute
        { locations := .jarr [.jstr "Gym"], dates := .jarr [.jstr "2025-11-17"],
          netid := .jstr "user", password := .jstr "pw" } = .badRequest msg) :=
  ⟨monitor_lenient_refresh_strict.2.1 (some "X1,Gym") "X1" (by decide),
   monitor_lenient_refresh_strict.2.2.2.2 _ [.jstr "Gym"] rfl
     ⟨.jstr "Gym", List.mem_singleton.mpr rfl, rfl⟩⟩

/-- C6 counterexample: cancelling the `pending` booking of
`examplePendingStore` succeeds even though its status is not `confirmed`,
refuting "the cancel operation succeeds exactly when the current status is
confirmed" — the repository's Phase 5.5 document states that cancel works
for `pending` or `confirmed` bookings. -/
theorem cancel_pending_succeeds_counterexample :
    cancelSucceeds examplePendingStore 1 = true ∧
    ((examplePendingStore.rows.find? (fun r => r.id == 1)).map
        (fun r => r.data.status)) = some .pending ∧
    BookingStatus.pending ≠ BookingStatus.confirmed := by
  refine ⟨by decide, by decide, by decide⟩

/-- C6 (amended): the cancel operation succeeds exactly when the booking's
current status is `pending` or `confirmed`, transitioning it to `cancelled`;
when the status is already `cancelled` or `failed` it is rejected with an
error and the store is left unchanged — the cancel path never transitions a
booking out of `cancelled` or `failed`. -/
theorem cancel_booking_amended (s : Store) (id : Nat) (r : BookingRow)
    (hfind : s.rows.find? (fun x => x.id == id) = some r) :
    (cancelSucceeds s id = true ↔
      (r.data.status = .pending ∨ r.data.status = .confirmed)) ∧
    ((r.data.status = .pending ∨ r.data.status = .confirmed) →
      cancelBooking s id = .ok (setBookingStatus s id .cancelled)) ∧
    ((r.data.status = .cancelled ∨ r.data.status = .failed) →
      cancelBooking s id = .error .notCancellable ∧ applyOp s (.cancel id) = s) := by
  cases hst : r.data.status <;>
    simp [cancelSucceeds, cancelBooking, applyOp, hfind, hst]

/-- Witness for the amended C6: on a store whose booking 1 is `confirmed`,
the success criterion holds and cancel rewrites the row to `cancelled`. -/
theorem cancel_booking_amended_witness :
    (cancelSucceeds exampleConfirmedStore 1 = true ↔
      (exampleConfirmedRow.data.status = .pending ∨
        exampleConfirmedRow.data.status = .confirmed)) ∧
    cancelBooking exampleConfirmedStore 1
      = .ok (setBookingStatus exampleConfirmedStore 1 .cancelled) :=
  ⟨(cancel_booking_amended exampleConfirmedStore 1 exampleConfirmedRow (by decide)).1,
   (cancel_booking_amended exampleConfirmedStore 1 exampleConfirmedRow (by decide)).2.1
     (Or.inr rfl)⟩

/-- A snapshot key comparison is equality of the key tuples. -/
theorem sameSnapKey_iff (a b : Snapshot) :
    sameSnapKey a b = true ↔ snapKey a = snapKey b := by
  simp [sameSnapKey, snapKey, Prod.ext_iff, and_assoc]

/-- Key comparison is reflexive. -/
theorem sameSnapKey_refl (a : Snapshot) : sameSnapKey a a = true := by
  simp [sameSnapKey]

/-- Upserting one snapshot preserves key uniqueness. -/
theorem upsertSlot_unique (rows : List Snapshot) (s : Snapshot)
    (h : UniqueSnapKeys rows) : UniqueSnapKeys (upsertSlot rows s) := by
  unfold upsertSlot
  split_ifs with hex
  · rw [UniqueSnapKeys, List.pairwise_map]
    refine h.imp ?_
    intro a b hab
    by_cases ha : sameSnapKey a s = true <;> by_cases hb : sameSnapKey b s = true <;>
      simp [ha, hb]
    · exact absurd (((sameSnapKey_iff a s).1 ha).trans
        ((sameSnapKey_iff b s).1 hb).symm) hab
    · intro hk
      exact hb ((sameSnapKey_iff b s).2 hk.symm)
    · intro hk
      exact ha ((sameSnapKey_iff a s).2 hk)
    · exact hab
  · rw [UniqueSnapKeys, List.pairwise_append]
    refine ⟨h, List.pairwise_singleton _ _, ?_⟩
    intro a ha bb hbb
    rw [List.mem_singleton] at hbb
    intro hk
    rw [hbb] at hk
    rw [Bool.not_eq_true] at hex
    have hsame : sameSnapKey a s = true := (sameSnapKey_iff a s).2 hk
    rw [List.any_eq_false] at hex
    exact absurd hsame (by simpa using hex a ha)

/-- Any refresh sequence preserves key uniqueness. -/
theorem refreshAvailability_unique (snaps rows : List Snapshot)
    (h : UniqueSnapKeys rows) : UniqueSnapKeys (refreshAvailability rows snaps) := by
  induction snaps generalizing rows with
  | nil => exact h
  | cons s snaps ih =>
    simp only [refreshAvailability, List.foldl_cons]
    exact ih _ (upsertSlot_unique rows s h)

/-- Replacing every key-matching row with the new snapshot makes the first
key match the new snapshot, provided some row matched. -/
theorem find_map_upsert (s : Snapshot) (rows : List Snapshot)
    (hex : rows.any (fun r => sameSnapKey r s) = true) :
    (rows.map (fun r => if sameSnapKey r s then s else r)).find?
      (fun r => sameSnapKey r s) = some s := by
  induction rows with
  | nil => simp at hex
  | cons r rest ih =>
    by_cases hr : sameSnapKey r s = true
    · simp [List.find?_cons, hr, sameSnapKey_refl]
    · have hex' : rest.any (fun x => sameSnapKey x s) = true := by
        simpa [List.any_cons, hr] using hex
      simp [List.find?_cons, hr, ih hex']

/-- After an upsert, the live row for the upserted key is the new
snapshot. -/
theorem find_upsert_self (rows : List Snapshot) (s : Snapshot) :
    (upsertSlot rows s).find? (fun r => sameSnapKey r s) = some s := by
  unfold upsertSlot
  split_ifs with hex
  · exact find_map_upsert s rows hex
  · rw [Bool.not_eq_true, List.any_eq_false] at hex
    rw [List.find?_append]
    have hnone : rows.find? (fun r => sameSnapKey r s) = none := by
      rw [List.find?_eq_none]
      intro x hx
      simpa using hex x hx
    simp [hnone, List.find?_cons, sameSnapKey_refl]

/-- A `get` of the upserted key within the TTL window returns exactly the
upserted snapshot. -/
theorem getSlot_upsert_latest (rows : List Snapshot) (s : Snapshot) (now ttl : Nat)
    (httl : now - s.lastChecked ≤ ttl) :
    getSlot (upsertSlot rows s) s.location s.subLocation s.date s.timeSlot now ttl
      = some s := by
  have hpred : keyMatches s.location s.subLocation s.date s.timeSlot
      = (fun r => sameSnapKey r s) := rfl
  rw [getSlot, hpred, find_upsert_self]
  simp [httl]

/-- C8: slot-availability refresh is an idempotent upsert on the key
(location, subLocation, date, timeSlot): any sequence of refreshes preserves
at-most-one-row-per-key, and a `get` within the TTL window after refreshing
a key — also after two successive refreshes of the same key — reflects only
the latest refreshed snapshot. -/
theorem slot_refresh_upsert (rows snaps : List Snapshot) (s1 s2 : Snapshot)
    (now ttl : Nat) (h : UniqueSnapKeys rows) :
    UniqueSnapKeys (refreshAvailability rows snaps) ∧
    (now - s2.lastChecked ≤ ttl →
      getSlot (refreshAvailability rows [s2]) s2.location s2.subLocation s2.date
        s2.timeSlot now ttl = some s2) ∧
    (snapKey s1 = snapKey s2 → now - s2.lastChecked ≤ ttl →
      getSlot (refreshAvailability (refreshAvailability rows [s1]) [s2])
        s2.location s2.subLocation s2.date s2.timeSlot now ttl = some s2) := by
  refine ⟨refreshAvailability_unique snaps rows h, fun httl => ?_, fun _ httl => ?_⟩
  · simpa [refreshAvailability] using getSlot_upsert_latest rows s2 now ttl httl
  · simpa [refreshAvailability] using
      getSlot_upsert_latest (upsertSlot rows s1) s2 now ttl httl

/-- Witness for C8: from an empty cache, refreshing `exampleSnap1` then
`exampleSnap2` (same key) leaves a get at `now = 1050`, `ttl = 30` seeing
exactly `exampleSnap2`. -/
theorem slot_refresh_upsert_witness :
    UniqueSnapKeys (refreshAvailability [] [exampleSnap1]) ∧
    getSlot (refreshAvailability (refreshAvailability [] [exampleSnap1]) [exampleSnap2])
        exampleSnap2.location exampleSnap2.subLocation exampleSnap2.date
        exampleSnap2.timeSlot 1050 30 = some exampleSnap2 :=
  ⟨(slot_refresh_upsert [] [exampleSnap1] exampleSnap1 exampleSnap2 1050 30
      (by simp [UniqueSnapKeys])).1,
   (slot_refresh_upsert [] [exampleSnap1] exampleSnap1 exampleSnap2 1050 30
      (by simp [UniqueSnapKeys])).2.2 (by decide) (by decide)⟩

/-- Mapping a key-preserving function over the rows preserves key
uniqueness. -/
theorem unique_of_map_key_preserving (rows : List BookingRow)
    (f : BookingRow → BookingRow) (hf : ∀ r, rowKey (f r) = rowKey r)
    (h : rows.Pairwise (fun a b => rowKey a ≠ rowKey b)) :
    (rows.map f).Pairwise (fun a b => rowKey a ≠ rowKey b) := by
  rw [List.pairwise_map]
  exact h.imp (fun hab => by rw [hf, hf]; exact hab)

/-- Every store operation preserves the schema's key uniqueness: inserts
are conflict-checked, and updates and cancels never touch a key column. -/
theorem applyOp_unique (s : Store) (op : StoreOp) (h : UniqueSlotKeys s) :
    UniqueSlotKeys (applyOp s op) := by
  cases op with
  | create a d t loc sl =>
    by_cases hex : hasSlotKey s a d t = true
    · simpa [applyOp, createBooking, hex] using h
    · rw [Bool.not_eq_true] at hex
      simp only [applyOp, createBooking, hex, Bool.false_eq_true, if_false]
      rw [UniqueSlotKeys] at h ⊢
      rw [List.pairwise_append]
      refine ⟨h, List.pairwise_singleton _ _, ?_⟩
      intro x hx y hy
      rw [List.mem_singleton] at hy
      rw [hy]
      unfold hasSlotKey at hex
      rw [List.any_eq_false] at hex
      have hnot := hex x hx
      intro hk
      simp only [rowKey] at hk
      rw [Prod.ext_iff] at hk
      rw [Prod.ext_iff] at hk
      simp at hk hnot
      obtain ⟨hk1, hk2, hk3⟩ := hk
      exact absurd hk3 (hnot hk1 hk2)
  | update id st ref err =>
    exact unique_of_map_key_preserving s.rows _
      (fun r => by unfold rowKey; split <;> rfl) h
  | cancel id =>
    cases hf : s.rows.find? (fun r => r.id == id) with
    | none => simpa [applyOp, cancelBooking, hf] using h
    | some r =>
      by_cases hst : (r.data.status == BookingStatus.pending
          || r.data.status == BookingStatus.confirmed) = true
      · simp only [applyOp, cancelBooking, hf, hst, if_true]
        exact unique_of_map_key_preserving s.rows _
          (fun x => by unfold rowKey; split <;> rfl) h
      · simpa [applyOp, cancelBooking, hf, hst] using h

/-- Any operation sequence preserves key uniqueness. -/
theorem applyOps_unique (ops : List StoreOp) (s : Store) (h : UniqueSlotKeys s) :
    UniqueSlotKeys (applyOps s ops) := by
  induction ops generalizing s with
  | nil => exact h
  | cons op ops ih =>
    simp only [applyOps, List.foldl_cons]
    exact ih _ (applyOp_unique s op h)

/-- At most one row per key entails at most one pending-or-confirmed
booking per (account, date, time-slot). -/
theorem atMostOneActive_of_unique (s : Store) (h : UniqueSlotKeys s) :
    AtMostOneActive s := by
  intro a d t
  have hpair : (s.rows.filter (fun r =>
      r.data.accountId == a && r.data.date == d && r.data.timeSlot == t &&
        isActiveStatus r.data.status)).Pairwise (fun x y => rowKey x ≠ rowKey y) :=
    List.Pairwise.sublist (List.filter_sublist _) h
  rcases hfl : s.rows.filter (fun r =>
      r.data.accountId == a && r.data.date == d && r.data.timeSlot == t &&
        isActiveStatus r.data.status) with _ | ⟨x, _ | ⟨y, rest⟩⟩
  · simp [hfl]
  · simp [hfl]
  · exfalso
    rw [hfl] at hpair
    have hxy : rowKey x ≠ rowKey y :=
      (List.pairwise_cons.mp hpair).1 y (List.mem_cons_self _ _)
    have hxmem : x ∈ s.rows.filter (fun r =>
        r.data.accountId == a && r.data.date == d && r.data.timeSlot == t &&
          isActiveStatus r.data.status) := by
      rw [hfl]; exact List.mem_cons_self x _
    have hymem : y ∈ s.rows.filter (fun r =>
        r.data.accountId == a && r.data.date == d && r.data.timeSlot == t &&
          isActiveStatus r.data.status) := by
      rw [hfl]; exact List.mem_cons_of_mem _ (List.mem_cons_self y _)
    have hx := List.of_mem_filter hxmem
    have hy := List.of_mem_filter hymem
    simp only [Bool.and_eq_true, beq_iff_eq] at hx hy
    apply hxy
    rw [rowKey, rowKey]
    rw [hx.1.1.1, hx.1.1.2, hx.1.2, hy.1.1.1, hy.1.1.2, hy.1.2]

/-- C1: under the bookings schema's `UNIQUE(account_id, booking_date,
time_slot)` constraint, inserting a second booking for an occupied
(account, date, time-slot) tuple fails with `Conflict`, and every sequence
of state-mutating store operations preserves at-most-one-row-per-tuple —
hence at most one booking with status `pending` or `confirmed` per account
and (date, timeSlot), regardless of location. -/
theorem booking_slot_uniqueness (s : Store) (ops : List StoreOp)
    (h : UniqueSlotKeys s) :
    UniqueSlotKeys (applyOps s ops) ∧ AtMostOneActive (applyOps s ops) ∧
    (∀ (a : Nat) (d t loc : String) (sl : Option String),
      hasSlotKey s a d t = true → createBooking s a d t loc sl = .error .conflict) :=
  ⟨applyOps_unique ops s h,
   atMostOneActive_of_unique _ (applyOps_unique ops s h),
   fun _ _ _ _ _ hkey => by simp [createBooking, hkey]⟩

/-- Witness for C1: the singleton pending store satisfies the invariant;
after a duplicate-insert attempt both invariant forms still hold, and the
duplicate insert itself is rejected with `Conflict`. -/
theorem booking_slot_uniqueness_witness :
    UniqueSlotKeys examplePendingStore ∧
    hasSlotKey examplePendingStore 7 "2025-11-17" "13:00" = true ∧
    (UniqueSlotKeys (applyOps examplePendingStore
        [.create 7 "2025-11-17" "13:00" "X3" none]) ∧
      AtMostOneActive (applyOps examplePendingStore
        [.create 7 "2025-11-17" "13:00" "X3" none]) ∧
      (∀ (a : Nat) (d t loc : String) (sl : Option String),
        hasSlotKey examplePendingStore a d t = true →
        createBooking examplePendingStore a d t loc sl = .error .conflict)) :=
  ⟨by simp [UniqueSlotKeys, examplePendingStore],
   by decide,
   booking_slot_uniqueness examplePendingStore _
     (by simp [UniqueSlotKeys, examplePendingStore])⟩

/-- The record of one attempt targets the requested hour at the tier's
location. -/
theorem attemptRecord_fields (portal : Portal) (date loc : String) (a : Nat)
    (sl : Option String) (h : String) :
    (attemptRecord portal date loc a sl h).timeSlot = h ∧
    (attemptRecord portal date loc a sl h).location = loc := by
  cases hp : portal a h loc sl <;> simp [attemptRecord, hp]

/-- The record of one attempt agrees with the portal's answer. -/
theorem attemptRecord_fromPortal (portal : Portal) (date loc : String) (a : Nat)
    (sl : Option String) (h : String) :
    BookingFromPortal portal (attemptRecord portal date loc a sl h) := by
  cases hp : portal a h loc sl <;> simp [BookingFromPortal, attemptRecord, hp]

/-- Every booking logged by `tryHour` is the record of an attempt for one
of its (account, sub-location) pairs. -/
theorem tryHour_mem (portal : Portal) (date loc : String)
    (pairs : List (Nat × Option String)) (h : String) (b : Booking)
    (hb : b ∈ tryHour portal date loc pairs h) :
    ∃ p ∈ pairs, b = attemptRecord portal date loc p.1 p.2 h := by
  induction pairs with
  | nil => simp [tryHour] at hb
  | cons p rest ih =>
    simp only [tryHour] at hb
    split_ifs at hb with hc
    · rw [List.mem_singleton] at hb
      exact ⟨p, List.mem_cons_self _ _, hb⟩
    · rcases List.mem_cons.mp hb with hb1 | hb2
      · exact ⟨p, List.mem_cons_self _ _, hb1⟩
      · obtain ⟨q, hq, hbq⟩ := ih hb2
        exact ⟨q, List.mem_cons_of_mem _ hq, hbq⟩

/-- Every booking logged by `tryHour` targets the requested hour. -/
theorem tryHour_slot (portal : Portal) (date loc : String)
    (pairs : List (Nat × Option String)) (h : String) (b : Booking)
    (hb : b ∈ tryHour portal date loc pairs h) : b.timeSlot = h := by
  obtain ⟨p, _, rfl⟩ := tryHour_mem portal date loc pairs h b hb
  exact (attemptRecord_fields portal date loc p.1 p.2 h).1

/-- Every booking logged by `tryHour` agrees with the portal. -/
theorem tryHour_fromPortal (portal : Portal) (date loc : String)
    (pairs : List (Nat × Option String)) (h : String) (b : Booking)
    (hb : b ∈ tryHour portal date loc pairs h) : BookingFromPortal portal b := by
  obtain ⟨p, _, rfl⟩ := tryHour_mem portal date loc pairs h b hb
  exact attemptRecord_fromPortal portal date loc p.1 p.2 h

/-- In a `tryHour` log only the last booking can be confirmed: the walk
stops at the first success. -/
theorem tryHour_earlier_not_confirmed (portal : Portal) (date loc : String)
    (pairs : List (Nat × Option String)) (h : String) :
    (tryHour portal date loc pairs h).Pairwise (fun x _ => x.status ≠ .confirmed) := by
  induction pairs with
  | nil => simp [tryHour]
  | cons p rest ih =>
    simp only [tryHour]
    split_ifs with hc
    · exact List.pairwise_singleton _ _
    · exact List.Pairwise.cons (fun y _ => hc) ih

/-- Unfolding equation for the log component of `runTier` on a cons. -/
theorem runTier_fst_cons (portal : Portal) (date : String) (tier : Tier)
    (h : String) (hs satisfied : List String) :
    (runTier portal date tier (h :: hs) satisfied).1 =
      if satisfied.contains h then (runTier portal date tier hs satisfied).1
      else
        tryHour portal date tier.location (roundRobin tier.accounts tier.subLocations) h ++
          (runTier portal date tier hs
            (if (tryHour portal date tier.location
                  (roundRobin tier.accounts tier.subLocations) h).any
                  (fun b => b.status == .confirmed)
              then h :: satisfied else satisfied)).1 := by
  simp only [runTier]
  split_ifs <;> rfl

/-- Unfolding equation for the satisfied-set component of `runTier` on a
cons. -/
theorem runTier_snd_cons (portal : Portal) (date : String) (tier : Tier)
    (h : String) (hs satisfied : List String) :
    (runTier portal date tier (h :: hs) satisfied).2 =
      if satisfied.contains h then (runTier portal date tier hs satisfied).2
      else
        (runTier portal date tier hs
          (if (tryHour portal date tier.location
                (roundRobin tier.accounts tier.subLocations) h).any
                (fun b => b.status == .confirmed)
            then h :: satisfied else satisfied)).2 := by
  simp only [runTier]
  split_ifs <;> rfl

/-- Unfolding equation for the log of `runJob` on a cons. -/
theorem runJob_bookings_cons (portal : Portal) (date : String) (t : Tier)
    (ts : List Tier) (hours satisfied : List String) :
    (runJob portal date (t :: ts) hours satisfied).bookings =
      if hours.all (fun h => (runTier portal date t hours satisfied).2.contains h) then
        (runTier portal date t hours satisfied).1
      else
        (runTier portal date t hours satisfied).1 ++
          (runJob portal date ts hours
            (runTier portal date t hours satisfied).2).bookings := by
  simp only [runJob]
  split_ifs <;> rfl

/-- Unfolding equation for the status of `runJob` on a cons. -/
theorem runJob_status_cons (portal : Portal) (date : String) (t : Tier)
    (ts : List Tier) (hours satisfied : List String) :
    (runJob portal date (t :: ts) hours satisfied).status =
      if hours.all (fun h => (runTier portal date t hours satisfied).2.contains h) then
        JobStatus.completed
      else
        (runJob portal date ts hours
          (runTier portal date t hours satisfied).2).status := by
  simp only [runJob]
  split_ifs <;> rfl

/-- `runTier` never logs an attempt for an hour that was already satisfied
when it started. -/
theorem runTier_avoids (portal : Portal) (date : String) (tier : Tier)
    (hours satisfied : List String) (b : Booking)
    (hb : b ∈ (runTier portal date tier hours satisfied).1) :
    b.timeSlot ∉ satisfied := by
  induction hours generalizing satisfied with
  | nil => simp [runTier] at hb
  | cons h hs ih =>
    rw [runTier_fst_cons] at hb
    split_ifs at hb with hsat hany
    · exact ih satisfied hb
    · rcases List.mem_append.mp hb with hb1 | hb2
      · rw [tryHour_slot portal date tier.location _ h b hb1]
        intro hmem
        exact hsat (List.elem_eq_true_of_mem hmem)
      · intro hmem
        exact ih _ hb2 (List.mem_cons_of_mem _ hmem)
    · rcases List.mem_append.mp hb with hb1 | hb2
      · rw [tryHour_slot portal date tier.location _ h b hb1]
        intro hmem
        exact hsat (List.elem_eq_true_of_mem hmem)
      · exact ih _ hb2

/-- `runTier` only grows the satisfied set. -/
theorem runTier_mono (portal : Portal) (date : String) (tier : Tier)
    (hours satisfied : List String) :
    satisfied ⊆ (runTier portal date tier hours satisfied).2 := by
  induction hours generalizing satisfied with
  | nil => simp [runTier]
  | cons h hs ih =>
    rw [runTier_snd_cons]
    split_ifs with hsat hany
    · exact ih satisfied
    · exact List.Subset.trans (List.subset_cons_self _ _) (ih _)
    · exact ih satisfied

/-- A confirmed booking in a `runTier` log has its hour in the final
satisfied set. -/
theorem runTier_confirmed_satisfied (portal : Portal) (date : String)
    (tier : Tier) (hours satisfied : List String) (b : Booking)
    (hb : b ∈ (runTier portal date tier hours satisfied).1)
    (hc : b.status = .confirmed) :
    b.timeSlot ∈ (runTier portal date tier hours satisfied).2 := by
  induction hours generalizing satisfied with
  | nil => simp [runTier] at hb
  | cons h hs ih =>
    rw [runTier_fst_cons] at hb
    rw [runTier_snd_cons]
    split_ifs at hb ⊢ with hsat hany
    · exact ih satisfied hb
    · rcases List.mem_append.mp hb with hb1 | hb2
      · have hslot := tryHour_slot portal date tier.location _ h b hb1
        refine runTier_mono portal date tier hs (h :: satisfied) ?_
        rw [hslot]
        exact List.mem_cons_self _ _
      · exact ih _ hb2
    · rcases List.mem_append.mp hb with hb1 | hb2
      · exact absurd (List.any_eq_true.mpr ⟨b, hb1, by simp [hc]⟩) hany
      · exact ih _ hb2

/-- A `runTier` log never dispatches an hour again after its success. -/
theorem runTier_pairwise (portal : Portal) (date : String) (tier : Tier)
    (hours satisfied : List String) :
    NoDispatchAfterSuccess (runTier portal date tier hours satisfied).1 := by
  induction hours generalizing satisfied with
  | nil => simp [runTier, NoDispatchAfterSuccess]
  | cons h hs ih =>
    rw [NoDispatchAfterSuccess, runTier_fst_cons]
    split_ifs with hsat hany
    · exact ih satisfied
    · rw [List.pairwise_append]
      refine ⟨(tryHour_earlier_not_confirmed portal date tier.location _ h).imp
        (fun hx hxc => absurd hxc hx), ih _, ?_⟩
      intro x hx y hy hxc
      have hxslot := tryHour_slot portal date tier.location _ h x hx
      have hyavoid := runTier_avoids portal date tier hs (h :: satisfied) y hy
      rw [hxslot]
      intro hys
      exact hyavoid (by rw [hys]; exact List.mem_cons_self _ _)
    · rw [List.pairwise_append]
      refine ⟨(tryHour_earlier_not_confirmed portal date tier.location _ h).imp
        (fun hx hxc => absurd hxc hx), ih _, ?_⟩
      intro x hx y hy hxc
      exact absurd (List.any_eq_true.mpr ⟨x, hx, by simp [hxc]⟩) hany

/-- `runTier` skips every hour when the window is already fully
satisfied. -/
theorem runTier_all_satisfied (portal : Portal) (date : String) (tier : Tier)
    (hours satisfied : List String) (hall : ∀ h ∈ hours, h ∈ satisfied) :
    runTier portal date tier hours satisfied = ([], satisfied) := by
  induction hours with
  | nil => rfl
  | cons h hs ih =>
    have hc : satisfied.contains h = true :=
      List.elem_eq_true_of_mem (hall h (List.mem_cons_self _ _))
    simp only [runTier, hc, if_true]
    exact ih (fun x hx => hall x (List.mem_cons_of_mem _ hx))

/-- Every booking logged by `runTier` agrees with the portal. -/
theorem runTier_fromPortal (portal : Portal) (date : String) (tier : Tier)
    (hours satisfied : List String) (b : Booking)
    (hb : b ∈ (runTier portal date tier hours satisfied).1) :
    BookingFromPortal portal b := by
  induction hours generalizing satisfied with
  | nil => simp [runTier] at hb
  | cons h hs ih =>
    rw [runTier_fst_cons] at hb
    split_ifs at hb with hsat hany
    · exact ih satisfied hb
    · rcases List.mem_append.mp hb with hb1 | hb2
      · exact tryHour_fromPortal portal date tier.location _ h b hb1
      · exact ih _ hb2
    · rcases List.mem_append.mp hb with hb1 | hb2
      · exact tryHour_fromPortal portal date tier.location _ h b hb1
      · exact ih _ hb2

/-- `runJob` never logs an attempt for an hour satisfied before it
started. -/
theorem runJob_avoids (portal : Portal) (date : String) (tiers : List Tier)
    (hours satisfied : List String) (b : Booking)
    (hb : b ∈ (runJob portal date tiers hours satisfied).bookings) :
    b.timeSlot ∉ satisfied := by
  induction tiers generalizing satisfied with
  | nil => simp [runJob] at hb
  | cons t ts ih =>
    rw [runJob_bookings_cons] at hb
    split_ifs at hb with hall
    · exact runTier_avoids portal date t hours satisfied b hb
    · rcases List.mem_append.mp hb with hb1 | hb2
      · exact runTier_avoids portal date t hours satisfied b hb1
      · intro hmem
        exact ih _ hb2 (runTier_mono portal date t hours satisfied hmem)

/-- Every booking logged by `runJob` agrees with the portal. -/
theorem runJob_fromPortal (portal : Portal) (date : String) (tiers : List Tier)
    (hours satisfied : List String) (b : Booking)
    (hb : b ∈ (runJob portal date tiers hours satisfied).bookings) :
    BookingFromPortal portal b := by
  induction tiers generalizing satisfied with
  | nil => simp [runJob] at hb
  | cons t ts ih =>
    rw [runJob_bookings_cons] at hb
    split_ifs at hb with hall
    · exact runTier_fromPortal portal date t hours satisfied b hb
    · rcases List.mem_append.mp hb with hb1 | hb2
      · exact runTier_fromPortal portal date t hours satisfied b hb1
      · exact ih _ hb2

/-- A `runJob` log never dispatches an hour again after its success, also
across tiers. -/
theorem runJob_pairwise (portal : Portal) (date : String) (tiers : List Tier)
    (hours satisfied : List String) :
    NoDispatchAfterSuccess (runJob portal date tiers hours satisfied).bookings := by
  induction tiers generalizing satisfied with
  | nil => simp [runJob, NoDispatchAfterSuccess]
  | cons t ts ih =>
    rw [NoDispatchAfterSuccess, runJob_bookings_cons]
    split_ifs with hall
    · exact runTier_pairwise portal date t hours satisfied
    · rw [List.pairwise_append]
      refine ⟨runTier_pairwise portal date t hours satisfied, ih _, ?_⟩
      intro x hx y hy hxc
      have hxs := runTier_confirmed_satisfied portal date t hours satisfied x hx hxc
      have hyavoid := runJob_avoids portal date ts hours _ y hy
      intro hys
      exact hyavoid (by rw [hys]; exact hxs)

/-- When the whole window is already satisfied, any remaining tier list
dispatches nothing and the job completes as is. -/
theorem runJob_all_satisfied (portal : Portal) (date : String)
    (tiers : List Tier) (hours satisfied : List String)
    (hall : hours.all (fun h => satisfied.contains h) = true) :
    runJob portal date tiers hours satisfied =
      { status := .completed, bookings := [], satisfiedHours := satisfied } := by
  have hmem : ∀ h ∈ hours, h ∈ satisfied := by
    rw [List.all_eq_true] at hall
    intro h hh
    simpa using hall h hh
  induction tiers with
  | nil =>
    simp [runJob, hall, hmem]
    exact hmem
  | cons t ts ih =>
    simp [runJob, runTier_all_satisfied portal date t hours satisfied hmem, hall, hmem]
    exact fun x hx hnot => absurd (hmem x hx) hnot

/-- Once a tier list completes the job, appending further tiers leaves the
result unchanged: no further tier is dispatched. -/
theorem runJob_completed_extra (portal : Portal) (date : String)
    (tiers extra : List Tier) (hours satisfied : List String)
    (hc : (runJob portal date tiers hours satisfied).status = .completed) :
    runJob portal date (tiers ++ extra) hours satisfied =
      runJob portal date tiers hours satisfied := by
  induction tiers generalizing satisfied with
  | nil =>
    simp only [runJob] at hc
    have hall : (hours.all fun h => satisfied.contains h) = true := by
      by_contra hno
      rw [if_neg hno] at hc
      exact absurd hc (by decide)
    rw [List.nil_append, runJob_all_satisfied portal date extra hours satisfied hall,
      runJob_all_satisfied portal date [] hours satisfied hall]
  | cons t ts ih =>
    simp only [List.cons_append, runJob]
    split_ifs with hall
    · rfl
    · have hrec : (runJob portal date ts hours
          (runTier portal date t hours satisfied).2).status = .completed := by
        rw [runJob_status_cons, if_neg hall] at hc
        exact hc
      simp only [List.append_eq]
      rw [ih _ hrec]

/-- C3: in the coordinator's priority waterfall (started with no hour yet
satisfied): every logged booking is `confirmed` exactly when its portal
attempt succeeded, a confirmed booking carrying the portal's returned
reference; once an attempt for an hour confirms, no further account is
dispatched for that hour anywhere in the job; and when the tiers confirm
the full requested window the job is `completed` and appending further
tiers dispatches nothing — the result is unchanged. -/
theorem coordinator_waterfall (portal : Portal) (date : String)
    (tiers extra : List Tier) (hours : List String) :
    (∀ b ∈ (runJob portal date tiers hours []).bookings,
      BookingFromPortal portal b) ∧
    NoDispatchAfterSuccess (runJob portal date tiers hours []).bookings ∧
    ((runJob portal date tiers hours []).status = .completed →
      runJob portal date (tiers ++ extra) hours [] =
        runJob portal date tiers hours []) :=
  ⟨fun b hb => runJob_fromPortal portal date tiers hours [] b hb,
   runJob_pairwise portal date tiers hours [],
   fun hc => runJob_completed_extra portal date tiers extra hours [] hc⟩

/-- Witness for C3: the example job confirms 13:00 via account 1 with
reference `REF-13`, its log never revisits a confirmed hour, and appending
a second tier to the completed job changes nothing. -/
theorem coordinator_waterfall_witness :
    BookingFromPortal examplePortal exampleConfirmedAttempt ∧
    NoDispatchAfterSuccess
      (runJob examplePortal "2025-11-17" [exampleTier] exampleHours []).bookings ∧
    runJob examplePortal "2025-11-17" ([exampleTier] ++ [exampleTier2]) exampleHours []
      = runJob examplePortal "2025-11-17" [exampleTier] exampleHours [] :=
  ⟨(coordinator_waterfall examplePortal "2025-11-17" [exampleTier] [exampleTier2]
      exampleHours).1 exampleConfirmedAttempt (by decide),
   (coordinator_waterfall examplePortal "2025-11-17" [exampleTier] [exampleTier2]
      exampleHours).2.1,
   (coordinator_waterfall examplePortal "2025-11-17" [exampleTier] [exampleTier2]
      exampleHours).2.2 (by decide)⟩

end XBooking
